import Mathlib

/-
  Verification of the stage-orchestration core of the AI-agent deep-research
  pipeline: the loop-transition function, the tool-execution stage's document
  deduplication, the curation stage's selection/extraction, the engine's merge
  of partial updates, and the token-bucket rate limiter.

  Embedding conventions:
  * Python dicts (insertion-ordered, unique keys) are association lists;
    assignment to a fresh key appends, assignment to an existing key updates
    the entry in place.
  * Real time and fractional token levels are rationals; `consume` takes the
    clock readings as explicit parameters.
  * External collaborators (search tool results, the LLM's structured output,
    the extraction API response) are parameters of the stage functions.
-/

namespace DeepResearch

/-! ### String helpers (Python `str.lower` and the `in` substring test) -/

/-- Lower-case every character, as Python `str.lower()` does for the ASCII
phrases compared in `should_continue`. -/
def strToLower (s : String) : String :=
  String.mk (s.toList.map Char.toLower)

/-- Whether `pat` occurs at the head of `s`. -/
def strMatchAt (pat s : List Char) : Bool :=
  match pat, s with
  | [], _ => true
  | _ :: _, [] => false
  | p :: ps, c :: cs => p == c && strMatchAt ps cs

/-- Whether `pat` occurs somewhere in `s` (scanning every suffix). -/
def strFindSub (pat s : List Char) : Bool :=
  match s with
  | [] => strMatchAt pat []
  | _ :: cs => strMatchAt pat s || strFindSub pat cs

/-- Python's `pat in s` substring containment test. -/
def strContains (s pat : String) : Bool :=
  strFindSub pat.toList s.toList

/-! ### Data model (modules/models.py) -/

/-- One tool call recorded on a message (name, opaque args, call id). -/
structure ToolCall where
  name : String
  args : String
  id : String
deriving DecidableEq, Repr

/-- A message in the conversation log.  `tool_calls` is empty for plain
text messages; `tool_call_id` is empty except on tool messages. -/
structure Message where
  tool_calls : List ToolCall
  content : String
  tool_call_id : String
deriving DecidableEq, Repr

/-- A document record: Tavily results carry url, title and a body snippet
with a relevance score; curation may later attach `raw_content`. -/
structure Doc where
  url : String
  title : String
  body : String
  score : ℚ
  raw_content : Option String
deriving DecidableEq, Repr

/-- A Python dict from URL to document record, as an insertion-ordered
association list with unique keys. -/
abbrev DocDict := List (String × Doc)

/-- Python `k in d`. -/
def dictContains (d : DocDict) (k : String) : Bool :=
  d.any (fun p => p.1 == k)

/-- Python `d.get(k)`: the value stored under `k`, if any. -/
def dictGet (d : DocDict) (k : String) : Option Doc :=
  (d.find? (fun p => p.1 == k)).map Prod.snd

/-- Python `d[k] = v`: update the entry in place if the key exists (keys are
unique, so the first occurrence is the entry), else append at the end. -/
def dictSet : DocDict → String → Doc → DocDict
  | [], k, v => [(k, v)]
  | p :: t, k, v => if p.1 == k then (k, v) :: t else p :: dictSet t k v

/-- The key list of a dict, in insertion order. -/
def keysOf (d : DocDict) : List String :=
  d.map Prod.fst

/-- The shared workflow state (`ResearchState` TypedDict). -/
structure ResearchState where
  company : String
  company_keywords : String
  exclude_keywords : String
  report : String
  documents : DocDict
  RAG_docs : DocDict
  messages : List Message
  iteration : Nat
deriving DecidableEq, Repr

/-! ### Engine merge of the messages field (modules/models.py line 28)

models.py annotates the `messages` field with `Annotated[List[AnyMessage], ...]`:
the metadata is the Ellipsis object, which is not a callable reducer, so the
LangGraph engine assigns the field its default last-value channel — a stage's
update replaces the stored list wholesale.  (With a reducer such as
`add_messages` the update would instead be appended.) -/

/-- The merge the engine applies to the `messages` field: last value wins. -/
def mergeMessages (_old new : List Message) : List Message :=
  new

/-- Merge following the spec's words, for comparison: append the update's
new records, in order, after the existing records. -/
def mergeMessagesSpec (old new : List Message) : List Message :=
  old ++ new

/-! ### Loop transition function (modules/workflow_nodes.py, should_continue) -/

/-- Decision core of `should_continue`, given the iteration counter and the
last message: max-iterations cap first, then pending tool calls, then the
case-insensitive completion-phrase test, else keep gathering. -/
def should_continue_core (iteration : Nat) (last_msg : Message) : String :=
  if 5 ≤ iteration then "curate"
  else if !last_msg.tool_calls.isEmpty then "tools"
  else if strContains (strToLower last_msg.content) "gathered enough information" then "curate"
  else "tools"

/-- The conditional-edge function `should_continue`.  The Python code begins
with `state['messages'][-1]`, which raises on an empty log, hence the
`Option`: `none` models the raise, otherwise the decision core runs. -/
def should_continue (s : ResearchState) : Option String :=
  s.messages.getLast?.map (fun m => should_continue_core s.iteration m)

/-! ### Token bucket rate limiter (modules/rate_limiter.py) -/

/-- Token bucket state: capacity, current (fractional) token level, refill
rate in tokens per second, and the last-refill timestamp. -/
structure TokenBucket where
  capacity : ℚ
  tokens : ℚ
  refill_rate : ℚ
  last_update : ℚ
deriving DecidableEq, Repr

/-- Outcome of one `consume` call: the bucket after the call, how long the
caller slept (0 on the fast path), and whether it was admitted. -/
structure ConsumeResult where
  bucket : TokenBucket
  waited : ℚ
  admitted : Bool
deriving DecidableEq, Repr

/-- The refill step at the top of `consume`:
`level = min(capacity, level + elapsed * refill_rate)` for `elapsed = now - last_update`. -/
def TokenBucket.refillLevel (b : TokenBucket) (now : ℚ) : ℚ :=
  min b.capacity (b.tokens + (now - b.last_update) * b.refill_rate)

/-- `TokenBucket.consume`: refill, then either deduct immediately when the
level covers the cost, or sleep `deficit / refill_rate` and zero the level.
`now` is the clock on entry and `wake` the clock after the sleep; both
branches return admission (`True` in the source). -/
def TokenBucket.consume (b : TokenBucket) (cost : ℚ) (now wake : ℚ) : ConsumeResult :=
  if cost ≤ b.refillLevel now then
    ⟨{ b with tokens := b.refillLevel now - cost, last_update := now }, 0, true⟩
  else
    ⟨{ b with tokens := 0, last_update := wake },
      (cost - b.refillLevel now) / b.refill_rate, true⟩

/-- `groq_token_estimator`: Python `max(1, int(len(str(text)) / 3.5))`.
Since 3.5 = 7/2 is an exact binary float and correctly rounded float
division of a length `n < 2^52` by 3.5 never crosses an integer boundary,
`int(n / 3.5)` equals the exact floor of `2n/7`, here `2 * n / 7` in `Nat`. -/
def groq_token_estimator (text : String) : Nat :=
  max 1 (2 * text.length / 7)

/-- Modelled from the spec's words, for comparison with the source's
estimator: characters divided by 3.5 ROUNDED UP, minimum 1
(`(2n + 6) / 7` in `Nat` is the ceiling of `2n/7`). -/
def estimateCostClaimed (text : String) : Nat :=
  max 1 ((2 * text.length + 6) / 7)

/-- The total cost `rate_limited_execute` passes to `consume`: the sum of
the estimator over the messages' contents plus `kwargs.get('max_tokens', 2000)`,
the reserved output budget. -/
def rate_limited_cost (msgs : List String) (max_tokens : Option Nat) : Nat :=
  (msgs.map (fun m => groq_token_estimator m)).sum + max_tokens.getD 2000

/-! ### Tool-execution stage (modules/workflow_nodes.py, tool_node) -/

/-- One step of the dedup loop over a tool's returned documents, carrying
the dict and the accumulated `docs_str`:
`if not docs or doc['url'] not in docs: docs[doc['url']] = doc; docs_str += ...`. -/
def dedupStep (acc : DocDict × String) (doc : Doc) : DocDict × String :=
  if acc.1.isEmpty || !dictContains acc.1 doc.url then
    (dictSet acc.1 doc.url doc, acc.2 ++ doc.title ++ ": " ++ doc.url ++ "\n")
  else acc

/-- Processing of one tool call inside `tool_node`: invoke the tool (the
results are the parameter `tr`), fold the dedup loop, and append a tool
message reporting the accumulated `docs_str`. -/
def toolCallStep (tr : ToolCall → List Doc) (acc : DocDict × String × List Message)
    (tc : ToolCall) : DocDict × String × List Message :=
  let ds := (tr tc).foldl dedupStep (acc.1, acc.2.1)
  (ds.1, ds.2,
    acc.2.2 ++ [⟨[], "Found the following new documents/information: " ++ ds.2, tc.id⟩])

/-- The partial update returned by a stage of the tool/curation kind:
only the fields it changed. -/
structure ToolNodeUpdate where
  messages : List Message
  documents : DocDict
  iteration : Nat
deriving DecidableEq, Repr

/-- `tool_node`: iterate over the tool calls of the last message, dedup new
documents by URL, and return new messages, the updated dict and
`iteration + 1`.  (The source reads `state['messages'][-1].tool_calls`;
as in `should_continue` an empty log would raise, and then the stage would
never run — modelled by the empty tool-call list.) -/
def tool_node (tr : ToolCall → List Doc) (s : ResearchState) : ToolNodeUpdate :=
  let tcs := (s.messages.getLast?.map Message.tool_calls).getD []
  let r := tcs.foldl (toolCallStep tr) (s.documents, "", [])
  ⟨r.2.2, r.1, s.iteration + 1⟩

/-- The engine folding a `tool_node` update into the state: every channel of
the `ResearchState` schema is a last-value channel, so each returned field
replaces the stored one. -/
def applyToolNode (tr : ToolCall → List Doc) (s : ResearchState) : ResearchState :=
  let u := tool_node tr s
  { s with messages := mergeMessages s.messages u.messages,
           documents := u.documents,
           iteration := u.iteration }

/-- The engine folding a research-stage update into the state; the research
stage only returns a `messages` field (its content is the parameter). -/
def applyResearch (s : ResearchState) (msgs : List Message) : ResearchState :=
  { s with messages := mergeMessages s.messages msgs }

/-- N traversals of the loop `research -> tools`: pass `n` first merges the
research stage's messages (parameter `research n`), then runs `tool_node`
with that pass's tool results (parameter `tools n`) and merges its update. -/
def runPasses (research : Nat → List Message) (tools : Nat → ToolCall → List Doc)
    (s : ResearchState) : Nat → ResearchState
  | 0 => s
  | n + 1 => applyToolNode (tools n) (applyResearch (runPasses research tools s n) (research n))

/-! ### Curation stage (modules/workflow_nodes.py, select_and_process) -/

/-- One step of the filtering comprehension
`{url: state['documents'][url] for url in relevant_urls if url in state['documents']}`:
keep the URL only when the document set holds it. -/
def selectStep (documents : DocDict) (acc : DocDict) (url : String) : DocDict :=
  match dictGet documents url with
  | some v => dictSet acc url v
  | none => acc

/-- The filtering comprehension over the collaborator's selected URLs. -/
def filterRAG (documents : DocDict) (urls : List String) : DocDict :=
  urls.foldl (selectStep documents) []

/-- One step of the extraction loop: for `(url, raw)` in the response,
`if url in RAG_docs: RAG_docs[url]['raw_content'] = raw`. -/
def extractStep (acc : DocDict) (item : String × String) : DocDict :=
  match dictGet acc item.1 with
  | some d => dictSet acc item.1 { d with raw_content := some item.2 }
  | none => acc

/-- The extraction loop over the response's results. -/
def applyExtraction (RAG : DocDict) (results : List (String × String)) : DocDict :=
  results.foldl extractStep RAG

/-- The `RAG_docs` value built by `select_and_process` on its success path:
filter the collaborator's selected URLs against the document set, then
attach raw content from the extraction response. -/
def select_RAG (documents : DocDict) (urls : List String)
    (results : List (String × String)) : DocDict :=
  applyExtraction (filterRAG documents urls) results

/-- The engine folding the curation stage's update into the state: the stage
returns only `messages` and `RAG_docs`, so `documents` keeps its value. -/
def applySelect (s : ResearchState) (msgs : List Message) (urls : List String)
    (results : List (String × String)) : ResearchState :=
  { s with messages := mergeMessages s.messages msgs,
           RAG_docs := select_RAG s.documents urls results }

/-! ### Dictionary lemmas -/

theorem dictContains_eq_isSome (d : DocDict) (k : String) :
    dictContains d k = (dictGet d k).isSome := by
  rw [Bool.eq_iff_iff]
  simp [dictContains, dictGet, List.any_eq_true, List.find?_isSome]

theorem dictContains_iff_mem_keysOf (d : DocDict) (k : String) :
    dictContains d k = true ↔ k ∈ keysOf d := by
  simp only [dictContains, keysOf, List.any_eq_true, List.mem_map, beq_iff_eq]

theorem dictGet_dictSet_self (d : DocDict) (k : String) (v : Doc) :
    dictGet (dictSet d k v) k = some v := by
  induction d with
  | nil => simp [dictSet, dictGet]
  | cons p t ih =>
    by_cases h : p.1 = k
    · simp [dictSet, h, dictGet, List.find?_cons_of_pos]
    · rw [dictSet, if_neg (by simpa using h)]
      rw [dictGet, List.find?_cons_of_neg _ (by simpa using h)]
      exact ih

theorem dictGet_dictSet_of_ne (d : DocDict) (k k' : String) (v : Doc) (h : k' ≠ k) :
    dictGet (dictSet d k v) k' = dictGet d k' := by
  induction d with
  | nil =>
    rw [dictSet, dictGet, dictGet]
    rw [List.find?_cons_of_neg _ (by simpa using Ne.symm h)]
  | cons p t ih =>
    by_cases hp : p.1 = k
    · rw [dictSet, if_pos (by simpa using hp)]
      rw [dictGet, dictGet]
      rw [List.find?_cons_of_neg _ (by simpa using Ne.symm h),
          List.find?_cons_of_neg _ (by simp only [hp, beq_iff_eq]; exact Ne.symm h)]
    · rw [dictSet, if_neg (by simpa using hp)]
      by_cases hp' : p.1 = k'
      · rw [dictGet, dictGet]
        rw [List.find?_cons_of_pos _ (by simpa using hp'),
            List.find?_cons_of_pos _ (by simpa using hp')]
      · rw [dictGet, dictGet]
        rw [List.find?_cons_of_neg _ (by simpa using hp'),
            List.find?_cons_of_neg _ (by simpa using hp')]
        exact ih

theorem dictContains_dictSet (d : DocDict) (k k' : String) (v : Doc) :
    dictContains (dictSet d k v) k' = true ↔ (dictContains d k' = true ∨ k' = k) := by
  induction d with
  | nil =>
    simp only [dictSet, dictContains, List.any_cons, List.any_nil, Bool.or_false,
      beq_iff_eq, Bool.false_eq_true, false_or]
    exact eq_comm
  | cons p t ih =>
    by_cases hp : p.1 = k
    · rw [dictSet, if_pos (by simpa using hp)]
      simp only [dictContains, List.any_cons, Bool.or_eq_true, beq_iff_eq]
      constructor
      · rintro (hk | hmem)
        · exact Or.inr hk.symm
        · exact Or.inl (Or.inr hmem)
      · rintro ((hk | hmem) | hk)
        · exact Or.inl (hp ▸ hk)
        · exact Or.inr hmem
        · exact Or.inl hk.symm
    · rw [dictSet, if_neg (by simpa using hp)]
      simp only [dictContains, List.any_cons, Bool.or_eq_true] at *
      rw [or_assoc]
      exact or_congr Iff.rfl ih

theorem keysOf_dictSet_of_contains (d : DocDict) (k : String) (v : Doc)
    (h : dictContains d k = true) : keysOf (dictSet d k v) = keysOf d := by
  induction d with
  | nil => simp [dictContains] at h
  | cons p t ih =>
    by_cases hp : p.1 = k
    · rw [dictSet, if_pos (by simpa using hp)]
      simp [keysOf, hp]
    · rw [dictSet, if_neg (by simpa using hp)]
      simp only [dictContains, List.any_cons, Bool.or_eq_true, beq_iff_eq] at h
      rcases h with h | h
      · exact absurd h hp
      · have ht := ih h
        simp only [keysOf, List.map_cons] at *
        rw [ht]

/-! ### Deduplication lemmas (tool_node) -/

theorem dedupStep_preserves (acc : DocDict × String) (doc : Doc) (k : String) (v : Doc)
    (h : dictGet acc.1 k = some v) : dictGet (dedupStep acc doc).1 k = some v := by
  by_cases hk : k = doc.url
  · have hcont : dictContains acc.1 doc.url = true := by
      rw [dictContains_eq_isSome, ← hk, h]
      rfl
    have hne : acc.1.isEmpty = false := by
      cases hl : acc.1 with
      | nil => rw [hl] at h; simp [dictGet] at h
      | cons a t => rfl
    simp only [dedupStep, hne, hcont, Bool.not_true, Bool.or_self, Bool.false_or,
      if_neg, ite_false, Bool.false_eq_true, not_false_eq_true]
    exact h
  · unfold dedupStep
    split
    · exact (dictGet_dictSet_of_ne acc.1 doc.url k doc hk).trans h
    · exact h

theorem dedupStep_insert (acc : DocDict × String) (doc : Doc)
    (h : dictGet acc.1 doc.url = none) :
    dictGet (dedupStep acc doc).1 doc.url = some doc := by
  have hcont : dictContains acc.1 doc.url = false := by
    rw [dictContains_eq_isSome, h]
    rfl
  simp [dedupStep, hcont, dictGet_dictSet_self]

theorem dedupStep_skip (acc : DocDict × String) (doc : Doc)
    (h : dictContains acc.1 doc.url = true) : dedupStep acc doc = acc := by
  have hne : acc.1.isEmpty = false := by
    cases hl : acc.1 with
    | nil => rw [hl] at h; simp [dictContains] at h
    | cons a t => rfl
  simp [dedupStep, hne, h]

theorem foldl_dedupStep_preserves (l : List Doc) :
    ∀ (acc : DocDict × String) (k : String) (v : Doc),
      dictGet acc.1 k = some v → dictGet ((l.foldl dedupStep acc)).1 k = some v := by
  induction l with
  | nil => exact fun acc k v h => h
  | cons d t ih => exact fun acc k v h => ih _ k v (dedupStep_preserves acc d k v h)

theorem foldl_toolCallStep_preserves (tr : ToolCall → List Doc) (tcs : List ToolCall) :
    ∀ (acc : DocDict × String × List Message) (k : String) (v : Doc),
      dictGet acc.1 k = some v → dictGet ((tcs.foldl (toolCallStep tr) acc)).1 k = some v := by
  induction tcs with
  | nil => exact fun acc k v h => h
  | cons tc t ih =>
    intro acc k v h
    exact ih _ k v (foldl_dedupStep_preserves (tr tc) (acc.1, acc.2.1) k v h)

/-! ### Curation lemmas (select_and_process) -/

theorem keysOf_extractStep (acc : DocDict) (item : String × String) :
    keysOf (extractStep acc item) = keysOf acc := by
  unfold extractStep
  cases hd : dictGet acc item.1 with
  | none => rfl
  | some d =>
    apply keysOf_dictSet_of_contains
    rw [dictContains_eq_isSome, hd]
    rfl

theorem keysOf_applyExtraction (results : List (String × String)) :
    ∀ RAG : DocDict, keysOf (applyExtraction RAG results) = keysOf RAG := by
  induction results with
  | nil => exact fun RAG => rfl
  | cons r t ih =>
    intro RAG
    calc keysOf (applyExtraction RAG (r :: t))
        = keysOf (applyExtraction (extractStep RAG r) t) := rfl
      _ = keysOf (extractStep RAG r) := ih _
      _ = keysOf RAG := keysOf_extractStep RAG r

theorem foldl_selectStep_sub (documents : DocDict) (urls : List String) :
    ∀ (acc : DocDict) (k : String),
      (dictContains acc k = true → dictContains documents k = true) →
      dictContains (urls.foldl (selectStep documents) acc) k = true →
      dictContains documents k = true := by
  induction urls with
  | nil => exact fun acc k hinv h => hinv h
  | cons u t ih =>
    intro acc k hinv h
    refine ih (selectStep documents acc u) k ?_ h
    intro hk
    unfold selectStep at hk
    cases hd : dictGet documents u with
    | none =>
      rw [hd] at hk
      exact hinv hk
    | some v =>
      rw [hd] at hk
      rcases (dictContains_dictSet acc u k v).mp hk with hc | rfl
      · exact hinv hc
      · rw [dictContains_eq_isSome, hd]
        rfl

theorem dictContains_select_RAG (documents : DocDict) (urls : List String)
    (results : List (String × String)) (k : String)
    (h : dictContains (select_RAG documents urls results) k = true) :
    dictContains documents k = true := by
  have hkeys := keysOf_applyExtraction results (filterRAG documents urls)
  have hmem : k ∈ keysOf (filterRAG documents urls) := by
    rw [← hkeys]
    exact (dictContains_iff_mem_keysOf _ k).mp h
  have hfil : dictContains (filterRAG documents urls) k = true :=
    (dictContains_iff_mem_keysOf _ k).mpr hmem
  exact foldl_selectStep_sub documents urls [] k (by simp [dictContains]) hfil

/-! ### Loop lemmas (runPasses) -/

theorem runPasses_iteration (research : Nat → List Message) (tools : Nat → ToolCall → List Doc)
    (s : ResearchState) : ∀ n, (runPasses research tools s n).iteration = s.iteration + n := by
  intro n
  induction n with
  | zero => rfl
  | succ m ih =>
    show (applyToolNode _ _).iteration = _
    simp only [applyToolNode, tool_node, applyResearch, ih]
    omega

/-! ### Claim C1: decision order of the transition function -/

/-- C1: `should_continue` evaluates its rules top to bottom with the
iteration cap first.  On every state with a nonempty message log: with the
iteration counter at least the configured maximum (5) it returns the
proceed-to-curation label "curate" regardless of the last message; below
the cap, a last message carrying tool calls gives the continue-gathering
label "tools"; otherwise a case-insensitive occurrence of the completion
phrase in the textual output gives "curate"; otherwise "tools". -/
theorem C1_transition_order (s : ResearchState) (h : s.messages ≠ []) :
    (5 ≤ s.iteration → should_continue s = some "curate") ∧
    (s.iteration < 5 → (s.messages.getLast h).tool_calls ≠ [] →
      should_continue s = some "tools") ∧
    (s.iteration < 5 → (s.messages.getLast h).tool_calls = [] →
      strContains (strToLower (s.messages.getLast h).content)
        "gathered enough information" = true →
      should_continue s = some "curate") ∧
    (s.iteration < 5 → (s.messages.getLast h).tool_calls = [] →
      strContains (strToLower (s.messages.getLast h).content)
        "gathered enough information" = false →
      should_continue s = some "tools") := by
  have hlast : s.messages.getLast? = some (s.messages.getLast h) :=
    List.getLast?_eq_getLast s.messages h
  simp only [should_continue, hlast, Option.map_some']
  refine ⟨?_, ?_, ?_, ?_⟩
  · intro h5
    simp [should_continue_core, h5]
  · intro h5 htc
    have hie : (s.messages.getLast h).tool_calls.isEmpty = false := by
      cases hm : (s.messages.getLast h).tool_calls with
      | nil => exact absurd hm htc
      | cons a t => rfl
    simp [should_continue_core, Nat.not_le.mpr h5, hie]
  · intro h5 htc hph
    simp [should_continue_core, Nat.not_le.mpr h5, htc, hph]
  · intro h5 htc hph
    simp [should_continue_core, Nat.not_le.mpr h5, htc, hph]

/-- Concrete state for the C1 witness: cap reached together with a last
message that would otherwise signal continued gathering. -/
def stateOne : ResearchState :=
  ⟨"ACME", "kw", "", "", [], [], [⟨[⟨"tavily_search", "q", "1"⟩], "", ""⟩], 5⟩

/-- C1 witness: at iteration 5 with a tool-calling last message, the
transition still returns "curate". -/
theorem C1_transition_order_witness :
    stateOne.messages ≠ [] ∧ should_continue stateOne = some "curate" :=
  ⟨by decide, (C1_transition_order stateOne (by decide)).1 (by decide)⟩

/-! ### Claim C9: what the transition decision reads -/

/-- A state whose last message requests tool calls. -/
def stateNine_a : ResearchState :=
  ⟨"ACME", "kw", "", "", [], [],
    [⟨[⟨"tavily_search", "q", "1"⟩], "", ""⟩], 0⟩

/-- A state agreeing with `stateNine_a` on every structured field but whose
message log signals completion instead. -/
def stateNine_b : ResearchState :=
  ⟨"ACME", "kw", "", "", [], [],
    [⟨[], "I have gathered enough information and am ready to proceed.", ""⟩], 0⟩

/-- C9 counterexample: two states agreeing on all structured fields
(document set, selected subset, artifact, iteration counter, subject
identity) but with different message logs receive different labels, so the
transition decision does read the message log. -/
theorem C9_counterexample :
    stateNine_a.company = stateNine_b.company ∧
    stateNine_a.company_keywords = stateNine_b.company_keywords ∧
    stateNine_a.exclude_keywords = stateNine_b.exclude_keywords ∧
    stateNine_a.report = stateNine_b.report ∧
    stateNine_a.documents = stateNine_b.documents ∧
    stateNine_a.RAG_docs = stateNine_b.RAG_docs ∧
    stateNine_a.iteration = stateNine_b.iteration ∧
    should_continue stateNine_a = some "tools" ∧
    should_continue stateNine_b = some "curate" ∧
    should_continue stateNine_a ≠ should_continue stateNine_b := by
  decide

/-- C9 amended: the transition decision reads only the iteration counter
and the LAST record of the message log — two states with nonempty logs that
agree on those two receive the same label, whatever their document sets,
selected subsets, artifacts, subject identities, or earlier log records. -/
theorem C9_transition_last_message (s₁ s₂ : ResearchState)
    (h₁ : s₁.messages ≠ []) (h₂ : s₂.messages ≠ [])
    (hiter : s₁.iteration = s₂.iteration)
    (hlast : s₁.messages.getLast h₁ = s₂.messages.getLast h₂) :
    should_continue s₁ = should_continue s₂ := by
  rw [should_continue, should_continue, List.getLast?_eq_getLast _ h₁,
    List.getLast?_eq_getLast _ h₂, hlast, hiter]

/-- A state agreeing with `stateNine_a` on the iteration counter and the
last message but with different structured fields. -/
def stateNine_c : ResearchState :=
  { stateNine_a with
      documents := [("https://a", ⟨"https://a", "A", "body", 0, none⟩)],
      report := "draft" }

/-- C9 amended witness: same iteration counter and last message give the
same label despite different document sets and artifacts. -/
theorem C9_transition_last_message_witness :
    should_continue stateNine_a = should_continue stateNine_c :=
  C9_transition_last_message stateNine_a stateNine_c (by decide) (by decide)
    (by decide) (by decide)

/-! ### Claim C2: iteration counter and the safety cap -/

/-- C2: the tool-execution stage increments the iteration counter by
exactly one per pass; starting from 0, after N passes through the loop the
counter equals N; and once the counter reaches the configured maximum (5),
the transition function selects "curate" whatever messages the decision
stage produced. -/
theorem C2_loop_cap (research : Nat → List Message) (tools : Nat → ToolCall → List Doc)
    (s : ResearchState) (N : Nat) (h0 : s.iteration = 0) :
    (∀ (tr : ToolCall → List Doc) (s' : ResearchState),
      (tool_node tr s').iteration = s'.iteration + 1) ∧
    (runPasses research tools s N).iteration = N ∧
    (5 ≤ N → ∀ msgs : List Message, msgs ≠ [] →
      should_continue (applyResearch (runPasses research tools s N) msgs) = some "curate") := by
  refine ⟨fun tr s' => rfl, ?_, ?_⟩
  · rw [runPasses_iteration, h0, Nat.zero_add]
  · intro h5 msgs hm
    have hi : (applyResearch (runPasses research tools s N) msgs).iteration = N := by
      show (runPasses research tools s N).iteration = N
      rw [runPasses_iteration, h0, Nat.zero_add]
    have hmsgs : (applyResearch (runPasses research tools s N) msgs).messages = msgs := rfl
    rw [should_continue, hmsgs, hi]
    cases msgs with
    | nil => exact absurd rfl hm
    | cons a t =>
      rw [List.getLast?_eq_getLast (a :: t) (by simp), Option.map_some']
      simp [should_continue_core, h5]

/-- C2 witness: a run of 5 passes from a fresh state reaches counter 5 and
the transition then selects "curate" even though the decision stage keeps
signalling more work. -/
theorem C2_loop_cap_witness :
    (runPasses (fun _ => [⟨[⟨"tavily_search", "q", "1"⟩], "", ""⟩])
        (fun _ _ => []) ⟨"ACME", "kw", "", "", [], [], [], 0⟩ 5).iteration = 5 ∧
    should_continue (applyResearch
        (runPasses (fun _ => [⟨[⟨"tavily_search", "q", "1"⟩], "", ""⟩])
          (fun _ _ => []) ⟨"ACME", "kw", "", "", [], [], [], 0⟩ 5)
        [⟨[⟨"tavily_search", "q", "1"⟩], "", ""⟩]) = some "curate" :=
  ⟨(C2_loop_cap (fun _ => [⟨[⟨"tavily_search", "q", "1"⟩], "", ""⟩]) (fun _ _ => [])
      ⟨"ACME", "kw", "", "", [], [], [], 0⟩ 5 rfl).2.1,
   (C2_loop_cap (fun _ => [⟨[⟨"tavily_search", "q", "1"⟩], "", ""⟩]) (fun _ _ => [])
      ⟨"ACME", "kw", "", "", [], [], [], 0⟩ 5 rfl).2.2 (by decide) _ (by decide)⟩

/-! ### Claim C3: token bucket admission -/

/-- C3: with a positive refill rate: at full level, a cost within capacity
is admitted immediately (zero wait) with the cost deducted from the level;
a cost exceeding the post-refill level is admitted only after waiting at
least (cost − level)/rate, after which the level is 0; and every call
resolves with admission. -/
theorem C3_token_bucket (b : TokenBucket) (cost now wake : ℚ)
    (hR : 0 < b.refill_rate) :
    (b.tokens = b.capacity → b.last_update ≤ now → 0 ≤ cost → cost ≤ b.capacity →
      (b.consume cost now wake).waited = 0 ∧
      (b.consume cost now wake).bucket.tokens = b.capacity - cost) ∧
    (b.refillLevel now < cost →
      (cost - b.refillLevel now) / b.refill_rate ≤ (b.consume cost now wake).waited ∧
      (b.consume cost now wake).bucket.tokens = 0) ∧
    (b.consume cost now wake).admitted = true := by
  refine ⟨?_, ?_, ?_⟩
  · intro hfull hle hc0 hcC
    have hlevel : b.refillLevel now = b.capacity := by
      rw [TokenBucket.refillLevel, hfull]
      have hnn : 0 ≤ (now - b.last_update) * b.refill_rate :=
        mul_nonneg (by linarith) (le_of_lt hR)
      exact min_eq_left (by linarith)
    have hcond : cost ≤ b.refillLevel now := by rw [hlevel]; exact hcC
    simp only [TokenBucket.consume, if_pos hcond]
    exact ⟨trivial, by rw [hlevel]⟩
  · intro hlt
    have hcond : ¬cost ≤ b.refillLevel now := not_le.mpr hlt
    simp only [TokenBucket.consume, if_neg hcond]
    exact ⟨le_refl _, trivial⟩
  · by_cases hcond : cost ≤ b.refillLevel now <;>
      simp [TokenBucket.consume, hcond]

/-- C3 witness: bucket of capacity 10, level 10, rate 5, cost 10 — admitted
at once, no wait, level drops to 0. -/
theorem C3_token_bucket_witness :
    ((⟨10, 10, 5, 0⟩ : TokenBucket).consume 10 0 2).waited = 0 ∧
    ((⟨10, 10, 5, 0⟩ : TokenBucket).consume 10 0 2).bucket.tokens = 10 - 10 ∧
    ((⟨10, 10, 5, 0⟩ : TokenBucket).consume 10 0 2).admitted = true :=
  ⟨((C3_token_bucket ⟨10, 10, 5, 0⟩ 10 0 2 (by decide)).1
      (by decide) (by decide) (by decide) (by decide)).1,
   ((C3_token_bucket ⟨10, 10, 5, 0⟩ 10 0 2 (by decide)).1
      (by decide) (by decide) (by decide) (by decide)).2,
   (C3_token_bucket ⟨10, 10, 5, 0⟩ 10 0 2 (by decide)).2.2⟩

/-! ### Claim C4: the document set grows monotonically -/

/-- C4: every key bound in the document set before the tool-execution stage
runs is still bound, to the same record, in the document set the stage
returns — whatever tools return on this pass. -/
theorem C4_documents_monotone (tr : ToolCall → List Doc) (s : ResearchState)
    (k : String) (v : Doc) (h : dictGet s.documents k = some v) :
    dictGet (tool_node tr s).documents k = some v :=
  foldl_toolCallStep_preserves tr _ (s.documents, "", []) k v h

/-- C4 witness: a stored document survives a pass whose tool returns a
conflicting record for the same URL. -/
theorem C4_documents_monotone_witness :
    dictGet (tool_node (fun _ => [⟨"https://a", "NEW", "x", 1, none⟩])
      ⟨"ACME", "kw", "", "", [("https://a", ⟨"https://a", "A", "body", 0, none⟩)], [],
        [⟨[⟨"tavily_search", "q", "1"⟩], "", ""⟩], 0⟩).documents "https://a"
      = some ⟨"https://a", "A", "body", 0, none⟩ :=
  C4_documents_monotone (fun _ => [⟨"https://a", "NEW", "x", 1, none⟩])
    ⟨"ACME", "kw", "", "", [("https://a", ⟨"https://a", "A", "body", 0, none⟩)], [],
      [⟨[⟨"tavily_search", "q", "1"⟩], "", ""⟩], 0⟩
    "https://a" ⟨"https://a", "A", "body", 0, none⟩ (by decide)

/-! ### Claim C5: deduplication is first-writer-wins -/

/-- C5: when the same URL is discovered twice with different payloads —
within one pass of the dedup loop or across two passes — the record stored
under that key is the first one inserted; the later discovery leaves the
dictionary unchanged. -/
theorem C5_first_writer_wins (docs : DocDict) (str str' : String) (d₁ d₂ : Doc)
    (hurl : d₂.url = d₁.url) (_hne : d₂ ≠ d₁)
    (h0 : dictGet docs d₁.url = none) :
    dictGet (([d₁, d₂].foldl dedupStep (docs, str)).1) d₁.url = some d₁ ∧
    dictGet (([d₂].foldl dedupStep (([d₁].foldl dedupStep (docs, str)).1, str')).1)
      d₁.url = some d₁ ∧
    (dedupStep (([d₁].foldl dedupStep (docs, str)).1, str') d₂).1
      = ([d₁].foldl dedupStep (docs, str)).1 := by
  have h₁ : dictGet (dedupStep (docs, str) d₁).1 d₁.url = some d₁ :=
    dedupStep_insert (docs, str) d₁ h0
  have hcont : dictContains (dedupStep (docs, str) d₁).1 d₂.url = true := by
    rw [hurl, dictContains_eq_isSome, h₁]
    rfl
  refine ⟨dedupStep_preserves _ d₂ _ d₁ h₁,
          dedupStep_preserves ((dedupStep (docs, str) d₁).1, str') d₂ _ d₁ h₁, ?_⟩
  show (dedupStep ((dedupStep (docs, str) d₁).1, str') d₂).1 = (dedupStep (docs, str) d₁).1
  rw [dedupStep_skip ((dedupStep (docs, str) d₁).1, str') d₂ hcont]

/-- C5 witness: two discoveries of the same URL with different titles keep
the first record, in one pass and across passes. -/
theorem C5_first_writer_wins_witness :
    dictGet (([⟨"https://a", "A", "", 0, none⟩, ⟨"https://a", "B", "", 0, none⟩].foldl
        dedupStep ([], "")).1) "https://a" = some ⟨"https://a", "A", "", 0, none⟩ ∧
    dictGet (([(⟨"https://a", "B", "", 0, none⟩ : Doc)].foldl dedupStep
        (([(⟨"https://a", "A", "", 0, none⟩ : Doc)].foldl dedupStep ([], "")).1, "")).1)
      "https://a" = some ⟨"https://a", "A", "", 0, none⟩ :=
  ⟨(C5_first_writer_wins [] "" "" ⟨"https://a", "A", "", 0, none⟩
      ⟨"https://a", "B", "", 0, none⟩ (by decide) (by decide) (by decide)).1,
   (C5_first_writer_wins [] "" "" ⟨"https://a", "A", "", 0, none⟩
      ⟨"https://a", "B", "", 0, none⟩ (by decide) (by decide) (by decide)).2.1⟩

/-! ### Claim C6: the selected subset is a subset of the document set -/

/-- C6: after curation, every key of the selected subset (`RAG_docs`) is a
key of the document set as it stood when curation ran — identifiers the
decision collaborator returned that are absent from the document set are
dropped — and the stage leaves the document set itself untouched. -/
theorem C6_selected_subset (s : ResearchState) (msgs : List Message)
    (urls : List String) (results : List (String × String)) :
    (∀ k, dictContains (applySelect s msgs urls results).RAG_docs k = true →
      dictContains s.documents k = true) ∧
    (applySelect s msgs urls results).documents = s.documents :=
  ⟨fun k h => dictContains_select_RAG s.documents urls results k h, rfl⟩

/-- C6 witness: a fabricated URL in the selection is dropped while a real
one is kept, and the kept one is a document-set key. -/
theorem C6_selected_subset_witness :
    dictContains (applySelect
      ⟨"ACME", "kw", "", "", [("https://a", ⟨"https://a", "A", "body", 0, none⟩)], [], [], 3⟩
      [] ["https://a", "https://fake"] [("https://a", "raw")]).RAG_docs "https://a" = true ∧
    dictContains
      (⟨"ACME", "kw", "", "", [("https://a", ⟨"https://a", "A", "body", 0, none⟩)], [], [], 3⟩
        : ResearchState).documents "https://a" = true :=
  ⟨by decide,
   (C6_selected_subset
      ⟨"ACME", "kw", "", "", [("https://a", ⟨"https://a", "A", "body", 0, none⟩)], [], [], 3⟩
      [] ["https://a", "https://fake"] [("https://a", "raw")]).1 "https://a" (by decide)⟩

/-! ### Claim C7: is the message log append-only under the merge? -/

/-- C7: evaluation of the engine's messages merge at a one-record log and a
one-record update.  Because models.py line 28 annotates the field with the
Ellipsis object instead of a reducer, the channel is last-value: the merge
replaces the log, dropping the existing record, where the append-only merge
the spec describes would keep both records in order. -/
theorem C7_merge_replaces :
    mergeMessages [⟨[], "first record", ""⟩] [⟨[], "second record", ""⟩]
      = [⟨[], "second record", ""⟩] ∧
    (⟨[], "first record", ""⟩ : Message) ∉
      mergeMessages [⟨[], "first record", ""⟩] [⟨[], "second record", ""⟩] ∧
    mergeMessagesSpec [⟨[], "first record", ""⟩] [⟨[], "second record", ""⟩]
      = [⟨[], "first record", ""⟩, ⟨[], "second record", ""⟩] := by
  refine ⟨rfl, by decide, rfl⟩

/-! ### Claim C8: the cost estimator -/

/-- C8 counterexample: on an 8-character payload the source estimator
yields 2 = ⌊8 ÷ 3.5⌋, not the 3 = ⌈8 ÷ 3.5⌉ the claim's "rounded up"
demands. -/
theorem C8_counterexample :
    groq_token_estimator "abcdefgh" = 2 ∧
    estimateCostClaimed "abcdefgh" = 3 ∧
    groq_token_estimator "abcdefgh" ≠ estimateCostClaimed "abcdefgh" := by
  decide

/-- C8 amended: the estimator is the character count divided by 3.5 rounded
DOWN, with a minimum result of 1 — it is the unique `e ≥ 1` with
`7e ≤ max 7 (2·len) < 7e + 7` — and the caller adds the reserved output
budget (default 2000) to the summed estimates before invoking consume. -/
theorem C8_estimator_floor (text : String) (msgs : List String) (budget : Nat) :
    1 ≤ groq_token_estimator text ∧
    7 * groq_token_estimator text ≤ max 7 (2 * text.length) ∧
    max 7 (2 * text.length) < 7 * groq_token_estimator text + 7 ∧
    rate_limited_cost msgs (some budget)
      = (msgs.map (fun m => groq_token_estimator m)).sum + budget ∧
    rate_limited_cost msgs none
      = (msgs.map (fun m => groq_token_estimator m)).sum + 2000 := by
  refine ⟨?_, ?_, ?_, rfl, rfl⟩ <;>
    · unfold groq_token_estimator
      omega

/-! ### Claim C10: extraction never adds a key to the selected subset -/

/-- C10: the extraction step inside curation attaches raw content only to
URLs already selected: for every extraction response, the key list of the
selected subset after the extraction loop is identical to the key list
before it. -/
theorem C10_extraction_preserves_keys (documents : DocDict) (urls : List String)
    (results : List (String × String)) :
    keysOf (applyExtraction (filterRAG documents urls) results)
      = keysOf (filterRAG documents urls) :=
  keysOf_applyExtraction results (filterRAG documents urls)

end DeepResearch
